import Mathlib

/-
Verification development for the hwpExtactor repository: a shallow embedding of
the three source files (hwpExtractor.py, hwpTextExtractor.py, hwpxExtractor.py)
together with theorems about the embedded functions.

Conventions of the embedding:
* Byte buffers are `List Nat` (each entry one byte of the Python `bytes` value).
* Python functions from external libraries (zlib, the codecs module,
  unicodedata, PIL, requests) are modelled as explicit function parameters
  ("oracles") bundled in structures, so every theorem quantifies over their
  behaviour.
* A Python function that can raise is embedded with `Except String` (the error
  string names the Python exception class); a function that can `return None`
  as well as a string is embedded with an explicit outcome type.
-/

/-- Embeds struct.unpack_from("<I", data, i) / struct.unpack("<I", data[i:i+4]):
four little-endian bytes starting at index i, combined into one unsigned value.
`none` models the struct.error raised when fewer than four bytes are available
from position i. -/
def unpack_u32le (data : List Nat) (i : Nat) : Option Nat :=
  match data[i]?, data[i+1]?, data[i+2]?, data[i+3]? with
  | some b0, some b1, some b2, some b3 =>
      some (b0 + b1 * 256 + b2 * 65536 + b3 * 16777216)
  | _, _, _, _ => none

/-! ## Embedding of src/hwpExtractor.py (class hwpExtractor) -/

/-- Embeds an opened OLE compound file as exposed by the olefile collaborator:
`dirs` is the result of ole_file.listdir() (a list of path-segment lists) and
`stream s` is the byte content of openstream(s).read(). -/
structure OleDoc where
  dirs : List (List String)
  stream : String → List Nat

/-- External Python functions used by hwpExtractor, modelled as oracles. -/
structure HwpOracles where
  /-- Models zlib.decompress(data, -15); `none` stands for a raised zlib.error. -/
  zlib_decompress : List Nat → Option (List Nat)
  /-- Modelled from the spec: `partial_decompress` is called by get_text
  (hwpExtractor.py line 54) on a decompression failure but is not defined
  anywhere under src/; per spec §4.2 it is a best-effort partial inflate that
  never raises and returns whatever bytes were produced up to the first
  unrecoverable error.  It is therefore modelled as an arbitrary total function
  on byte buffers. -/
  best_effort_decompress : List Nat → List Nat
  /-- Models bytes.decode(encoding) for the four codec names tried by
  decode_text; `none` stands for a raised UnicodeDecodeError. -/
  decode : String → List Nat → Option String
  /-- Models unicodedata.category(ch)[0] (the first letter of the Unicode
  general-category name of a character). -/
  category0 : Char → Char

/-- Embeds hwpExtractor.remove_chinese_characters: re.sub(r'[一-鿿]+', '', s).
Replacing every maximal run of characters of the CJK Unified Ideographs block
by the empty string deletes exactly the characters in the inclusive range
U+4E00..U+9FFF, hence the filter. -/
def remove_chinese_characters (s : String) : String :=
  String.mk (s.data.filter (fun c => !(decide (0x4E00 ≤ c.toNat ∧ c.toNat ≤ 0x9FFF))))

/-- Embeds hwpExtractor.remove_control_characters: keeps exactly the characters
whose Unicode general category does not begin with "C". -/
def remove_control_characters (category0 : Char → Char) (s : String) : String :=
  String.mk (s.data.filter (fun c => category0 c != 'C'))

/-- Embeds hwpExtractor.clean_text: remove_chinese_characters followed by
remove_control_characters. -/
def clean_text (category0 : Char → Char) (s : String) : String :=
  remove_control_characters category0 (remove_chinese_characters s)

/-- Inner loop of hwpExtractor.decode_text: try each encoding in order,
returning the first successful decode; only UnicodeDecodeError (modelled by
`none`) is caught and makes the loop continue. -/
def decode_text_go (decode : String → List Nat → Option String) (rec_data : List Nat) :
    List String → Option String
  | [] => none
  | enc :: rest =>
    match decode enc rec_data with
    | some s => some s
    | none => decode_text_go decode rec_data rest

/-- Embeds hwpExtractor.decode_text: tries 'utf-16', 'utf-8', 'cp949', 'euc-kr'
in that order; when every decode raises UnicodeDecodeError the Python function
falls off its end, i.e. returns None, which is modelled by `none`. -/
def decode_text (decode : String → List Nat → Option String) (rec_data : List Nat) :
    Option String :=
  decode_text_go decode rec_data ["utf-16", "utf-8", "cp949", "euc-kr"]

/-- Embeds the inline record-scanning while-loop of hwpExtractor.get_text
(lines 58-76), producing the value of section_text accumulated from position i.
The loop condition is `i < size` only, so struct.unpack_from can raise
struct.error when 1-3 bytes remain (modelled by `Except.error "struct.error"`);
and when decode_text returns None, `section_text += None` raises TypeError
(modelled by `Except.error "TypeError"`).  The slice data[i+4:i+4+rec_len] is
clamped to the end of the buffer, as in Python. -/
def sectionParse (decode : String → List Nat → Option String) (data : List Nat)
    (i : Nat) : Except String String :=
  if h : i < data.length then
    match unpack_u32le data i with
    | none => Except.error "struct.error"
    | some header =>
      let rec_type := header &&& 0x3ff
      let rec_len := (header >>> 20) &&& 0xfff
      if rec_type = 51 then
        sectionParse decode data (i + 4 + rec_len)
      else if rec_type = 67 then
        match decode_text decode ((data.drop (i + 4)).take rec_len) with
        | none => Except.error "TypeError"
        | some s =>
          match sectionParse decode data (i + 4 + rec_len) with
          | Except.error e => Except.error e
          | Except.ok rest => Except.ok (s ++ "\n" ++ rest)
      else sectionParse decode data (i + 4 + rec_len)
  else Except.ok ""
termination_by data.length - i
decreasing_by all_goals omega

/-- Embeds the decompression step of hwpExtractor.get_text (lines 49-56): when
the section is flagged compressed, try zlib.decompress(data, -15); on
zlib.error fall back to partial_decompress (the spec-modelled best-effort
inflate); otherwise pass the data through unchanged. -/
def get_text_decompress (O : HwpOracles) (is_zipped : Bool) (data : List Nat) :
    List Nat :=
  if is_zipped then
    match O.zlib_decompress data with
    | some u => u
    | none => O.best_effort_decompress data
  else data

/-- Helper for modelling Python int() on the digit substrings produced by the
section enumeration: accumulate decimal digits. -/
def digits_val : List Char → Nat → Option Nat
  | [], acc => some acc
  | c :: rest, acc =>
    if c.isDigit then digits_val rest (acc * 10 + (c.toNat - 48)) else none

/-- Models Python int(str) on the plain digit strings occurring as OLE section
name suffixes; `none` stands for a raised ValueError (in particular on the
empty string).  Exotic int() inputs (signs, underscores, whitespace) do not
occur for OLE storage names and are not modelled. -/
def py_int : List Char → Option Nat
  | [] => none
  | c :: rest => digits_val (c :: rest) 0

/-- Embeds the section-number enumeration of hwpExtractor.get_text
(lines 38-41): for every dirs entry d with d[0] == "BodyText", parse
int(d[1][len("Section"):]).  Indexing an empty entry raises IndexError and a
non-numeric suffix raises ValueError, which abort get_text since the loop is
not inside a try block. -/
def collect_section_nums : List (List String) → Except String (List Nat)
  | [] => Except.ok []
  | d :: rest =>
    match d with
    | [] => Except.error "IndexError"
    | d0 :: dtail =>
      if d0 = "BodyText" then
        match dtail with
        | [] => Except.error "IndexError"
        | nm :: _ =>
          match py_int (nm.data.drop 7) with
          | none => Except.error "ValueError"
          | some n =>
            match collect_section_nums rest with
            | Except.error e => Except.error e
            | Except.ok ns => Except.ok (n :: ns)
      else collect_section_nums rest

/-- Helper of py_sorted: insert into an ascending list. -/
def insert_sorted (x : Nat) : List Nat → List Nat
  | [] => [x]
  | y :: ys => if x ≤ y then x :: y :: ys else y :: insert_sorted x ys

/-- Models Python sorted() on the list of section numbers (ascending order). -/
def py_sorted : List Nat → List Nat
  | [] => []
  | x :: xs => insert_sorted x (py_sorted xs)

/-- Possible outcomes of hwpExtractor.get_text: the except-branch call of
get_hwp5_text (the legacy retry, modelled opaquely), an uncaught exception, the
implicit `return None` reached when the section for-loop body never runs, or a
returned string. -/
inductive GetTextOutcome where
  | retried
  | raised (msg : String)
  | returnedNone
  | returned (text : String)
deriving DecidableEq

/-- Embeds the section for-loop of hwpExtractor.get_text (lines 44-82).  The
source's `return text` statement is inside the loop body, so only the first
enumerated section is ever processed (the remaining sections, bound here to _,
are never visited); with an empty section list the loop body never runs and the
function falls off its end, returning None. -/
def get_text_loop (O : HwpOracles) (ole : OleDoc) (is_zipped : Bool) :
    List String → GetTextOutcome
  | [] => GetTextOutcome.returnedNone
  | sec :: _ =>
    let data := ole.stream sec
    let unzipped_data := get_text_decompress O is_zipped data
    match sectionParse O.decode unzipped_data 0 with
    | Except.error e => GetTextOutcome.raised e
    | Except.ok section_text =>
        GetTextOutcome.returned (clean_text O.category0 section_text ++ "\n")

/-- Embeds hwpExtractor.get_text.  `ole_open` is the result of
olefile.OleFileIO(self.file): `none` when the constructor raises (in which case
the source calls get_hwp5_text, the legacy retry).  After a successful open the
source raises a generic Exception when FileHeader or the summary stream is
absent, reads the compression bit from byte 36 of FileHeader (IndexError when
the stream is shorter), enumerates and sorts the BodyText sections and runs the
section loop. -/
def get_text (O : HwpOracles) (fname : String) (ole_open : Option OleDoc) :
    GetTextOutcome :=
  match ole_open with
  | none => GetTextOutcome.retried
  | some ole =>
    if ["FileHeader"] ∈ ole.dirs ∧ ["\x05HwpSummaryInformation"] ∈ ole.dirs then
      match (ole.stream "FileHeader")[36]? with
      | none => GetTextOutcome.raised "IndexError"
      | some b =>
        let is_zipped := b &&& 1 == 1
        match collect_section_nums ole.dirs with
        | Except.error e => GetTextOutcome.raised e
        | Except.ok nums =>
          get_text_loop O ole is_zipped
            ((py_sorted nums).map (fun x => "BodyText/Section" ++ toString x))
    else
      GetTextOutcome.raised
        ("ERROR :: HWPEXTRACTOR :: " ++ fname ++ " is Not a valid HWP OLE file")

/-! ## Embedding of src/hwpTextExtractor.py (class HWPTextExtractor) -/

/-- External Python functions used by HWPTextExtractor._parse_hwp5_text,
modelled as oracles: bytes.decode('utf-16le', errors='ignore') (total, never
raises), str.isprintable and str.isspace on single characters, and str.strip.
-/
structure Hwp5Handler where
  u16ignore : List Nat → String
  isPrintable : Char → Bool
  isSpace : Char → Bool
  strip : String → String

/-- Embeds the tag_id == 67 body of HWPTextExtractor._parse_hwp5_text
(lines 287-296): decode the payload as UTF-16LE ignoring errors, keep only
printable or whitespace characters, and append the stripped text when it is
non-empty (`none` means nothing is appended). -/
def handle_para_text (H : Hwp5Handler) (record_data : List Nat) : Option String :=
  let text := H.u16ignore record_data
  let text := String.mk (text.data.filter (fun c => H.isPrintable c || H.isSpace c))
  if H.strip text = "" then none else some (H.strip text)

/-- Embeds the while-loop of HWPTextExtractor._parse_hwp5_text (lines 260-296)
starting at a given offset.  The first component is the list of texts appended
from that point on; the second component records a raised struct.error (`none`
when the loop ends by its own break/guard conditions).  The record header's
level field ((record_header >>> 10) &&& 0x3FF) is computed by the source but
unused.  A 12-bit size field equal to 0xFFF triggers reading of a 4-byte
extended size immediately after the base header; every read is guarded by an
explicit length check that breaks out of the loop, mirroring the source. -/
def hwp5_loop (H : Hwp5Handler) (data : List Nat) (offset : Nat) :
    List String × Option String :=
  if h : offset < data.length - 4 then
    if data.length < offset + 4 then ([], none)
    else
      match unpack_u32le data offset with
      | none => ([], some "struct.error")
      | some record_header =>
        let tag_id := record_header &&& 0x3FF
        let size := (record_header >>> 20) &&& 0xFFF
        if size = 0xFFF then
          if data.length < offset + 8 then ([], none)
          else
            match unpack_u32le data (offset + 4) with
            | none => ([], some "struct.error")
            | some size2 =>
              if data.length < offset + 8 + size2 then ([], none)
              else
                let record_data := (data.drop (offset + 8)).take size2
                let rest := hwp5_loop H data (offset + 8 + size2)
                if tag_id = 67 then
                  match handle_para_text H record_data with
                  | some t => (t :: rest.1, rest.2)
                  | none => rest
                else rest
        else
          if data.length < offset + 4 + size then ([], none)
          else
            let record_data := (data.drop (offset + 4)).take size
            let rest := hwp5_loop H data (offset + 4 + size)
            if tag_id = 67 then
              match handle_para_text H record_data with
              | some t => (t :: rest.1, rest.2)
              | none => rest
            else rest
  else ([], none)
termination_by data.length - offset
decreasing_by all_goals omega

/-- Embeds HWPTextExtractor._parse_hwp5_text: run the record loop from offset 0
and join the collected texts with single spaces.  The surrounding try/except of
the source only prints on an exception and still returns the joined texts
accumulated so far, which the pair-based loop models by carrying the texts in
the first component. -/
def parse_hwp5_text (H : Hwp5Handler) (data : List Nat) : String :=
  " ".intercalate (hwp5_loop H data 0).1

/-- Embeds the per-section decompression of HWPTextExtractor._extract_from_hwp5
(lines 220-225): when the document is flagged compressed, try
zlib.decompress(data, -15) and on any exception keep the raw bytes (the except
branch is a bare pass). -/
def hwp5_decompress (O : HwpOracles) (is_compressed : Bool) (data : List Nat) :
    List Nat :=
  if is_compressed then
    match O.zlib_decompress data with
    | some u => u
    | none => data
  else data

/-- Models the byte source handed to HWPTextExtractor.detect_hwp_version: the
file path, whether open(file_path, 'rb') and the signature read succeed, and
the file's bytes. -/
structure HwpFile where
  path : String
  openOk : Bool
  bytes : List Nat

/-- Models str.lower() on the ASCII file paths involved in extension
detection. -/
def py_lower (s : String) : String := String.mk (s.data.map Char.toLower)

/-- Models str.endswith on the file paths involved in extension detection. -/
def py_endswith (s t : String) : Bool := t.data.isSuffixOf s.data

/-- Byte signature of a compound (CFB/OLE) file, from detect_hwp_version. -/
def cfb_magic : List Nat := [0xD0, 0xCF, 0x11, 0xE0, 0xA1, 0xB1, 0x1A, 0xE1]

/-- Byte signature b'HWP Document Fil' checked for the legacy 3.x variant. -/
def hwp3_sig_bytes : List Nat := "HWP Document Fil".data.map Char.toNat

/-- Embeds HWPTextExtractor.detect_hwp_version.  The .hwpx extension is checked
before any byte is read; a failed open is caught and yields
HWP_VERSION_UNKNOWN (0); the CFB magic yields _verify_hwp5_signature(f), which
returns HWP_VERSION_5X (5) on every one of its paths (match, fall-through and
exception alike); the legacy ASCII signature yields 3; anything else yields 0.
-/
def detect_hwp_version (f : HwpFile) : Nat :=
  if py_endswith (py_lower f.path) ".hwpx" then 6
  else if f.openOk = false then 0
  else
    let signature := f.bytes.take 32
    if signature.take 8 = cfb_magic then 5
    else if signature.take 16 = hwp3_sig_bytes then 3
    else 0

/-- The three per-version extraction routines invoked by extract_from_hwp,
modelled as oracles; an `Except.error` models an exception raised inside the
routine (caught by extract_from_hwp's try/except, which returns []). -/
structure HwpHandlers where
  from_hwpx : HwpFile → Except String (List String)
  from_hwp5 : HwpFile → Except String (List String)
  from_hwp3 : HwpFile → Except String (List String)

/-- Embeds HWPTextExtractor.extract_from_hwp (lines 109-138): detect the
version, dispatch to the matching routine, return [] for an unknown version
(after only printing a message), and return [] when the dispatched routine
raises. -/
def extract_from_hwp (E : HwpHandlers) (f : HwpFile) : List String :=
  let v := detect_hwp_version f
  let r : Except String (List String) :=
    if v = 6 then E.from_hwpx f
    else if v = 5 then E.from_hwp5 f
    else if v = 3 then E.from_hwp3 f
    else Except.ok []
  match r with
  | Except.ok l => l
  | Except.error _ => []

/-! ## Embedding of src/hwpxExtractor.py (class hwpxExtractor) -/

/-- Models an XML element as produced by xml.etree.ElementTree: a tag (with the
namespace URI expanded in braces, as ElementTree does), an optional text value
and the list of child elements in document order. -/
inductive XmlElem where
  | elem (tag : String) (text : Option String) (children : List XmlElem)

/-- Tag accessor of a modelled XML element. -/
def XmlElem.tagOf : XmlElem → String
  | .elem t _ _ => t

/-- Text accessor of a modelled XML element (None when the element has no
text). -/
def XmlElem.textOf : XmlElem → Option String
  | .elem _ x _ => x

/-- Children accessor of a modelled XML element. -/
def XmlElem.childrenOf : XmlElem → List XmlElem
  | .elem _ _ c => c

/-- All strict descendants of the elements of a list, in document (preorder)
order: each element followed by its own descendants. -/
def descList : List XmlElem → List XmlElem
  | [] => []
  | XmlElem.elem t x cs :: rest =>
      XmlElem.elem t x cs :: (descList cs ++ descList rest)

/-- Models ElementTree's findall('.//tag'): all strict descendants of e, in
document order, whose tag equals the given (namespace-expanded) tag. -/
def et_findall_desc (e : XmlElem) (t : String) : List XmlElem :=
  (descList e.childrenOf).filter (fun c => c.tagOf == t)

/-- Models ElementTree's find('tag'): the first direct child of e with the
given (namespace-expanded) tag, or None. -/
def et_find_child (e : XmlElem) (t : String) : Option XmlElem :=
  e.childrenOf.find? (fun c => c.tagOf == t)

/-- The namespaces dictionary of hwpxExtractor.__init__ (the entries used by
extract_text plus the rest of the table, kept for fidelity). -/
def hwpx_namespaces : List (String × String) :=
  [("opf", "http://www.idpf.org/2007/opf/"),
   ("hp", "http://www.hancom.co.kr/hwpml/2011/paragraph"),
   ("hp10", "http://www.hancom.co.kr/hwpml/2016/paragraph"),
   ("ha", "http://www.hancom.co.kr/hwpml/2011/app"),
   ("hs", "http://www.hancom.co.kr/hwpml/2011/section"),
   ("hc", "http://www.hancom.co.kr/hwpml/2011/core"),
   ("hh", "http://www.hancom.co.kr/hwpml/2011/head"),
   ("hhs", "http://www.hancom.co.kr/hwpml/2011/history"),
   ("hm", "http://www.hancom.co.kr/hwpml/2011/master-page"),
   ("hpf", "http://www.hancom.co.kr/schema/2011/hpf"),
   ("dc", "http://purl.org/dc/elements/1.1/"),
   ("ooxmlchart", "http://www.hancom.co.kr/hwpml/2016/ooxmlchart"),
   ("hwpunitchar", "http://www.hancom.co.kr/hwpml/2016/HwpUnitChar"),
   ("epub", "http://www.idpf.org/2007/ops"),
   ("config", "urn:oasis:names:tc:opendocument:xmlns:config:1.0")]

/-- Models ElementTree's resolution of a prefixed tag such as 'hp:p' against
the namespaces dictionary: the qualified form is the namespace URI in braces
followed by the local tag. -/
def ns_tag (pfx tag : String) : String :=
  match hwpx_namespaces.lookup pfx with
  | some uri => "\x7b" ++ uri ++ "\x7d" ++ tag
  | none => tag

/-- Embeds the text collection of hwpxExtractor.extract_text performed on a
parsed section root: for every descendant hp:p paragraph, for every descendant
hp:run of that paragraph, take the text of the run's first direct hp:t child
when both the element and its text are not None. -/
def hwpx_run_texts (root : XmlElem) : List String :=
  ((et_findall_desc root (ns_tag "hp" "p")).map (fun para =>
    (et_findall_desc para (ns_tag "hp" "run")).filterMap (fun rn =>
      match et_find_child rn (ns_tag "hp" "t") with
      | some el => el.textOf
      | none => none))).flatten

/-- Models the byte source handed to hwpxExtractor.extract_text: whether
zipfile.is_zipfile is true, whether ZipFile(...) itself raises (openErr), and
for each member name either `none` (absent: z.open raises KeyError), or the
outcome of z.open followed by ET.parse (`Except.error` models any non-KeyError
exception raised while opening or parsing the member). -/
structure HwpxZip where
  isZip : Bool
  openErr : Option String
  member : String → Option (Except String XmlElem)

/-- Embeds the body of hwpxExtractor.extract_text inside its outermost try:
probe 'Contents/section0.xml', then on KeyError 'BodyText/section0.xml', then
on KeyError 'Contents/content.hpf'.  The third attempt parses the stale
variable section_xml, which is unbound whenever this point is reached, so a
present content.hpf member raises UnboundLocalError; an absent one is caught as
KeyError and yields the section-not-found message as a normal return value.
Non-KeyError exceptions propagate out of this body to the outer handler. -/
def hwpx_body (z : HwpxZip) : Except String String :=
  if z.isZip then
    match z.openErr with
    | some e => Except.error e
    | none =>
      match z.member "Contents/section0.xml" with
      | some (Except.ok root) => Except.ok ("\n".intercalate (hwpx_run_texts root))
      | some (Except.error e) => Except.error e
      | none =>
        match z.member "BodyText/section0.xml" with
        | some (Except.ok root) => Except.ok ("\n".intercalate (hwpx_run_texts root))
        | some (Except.error e) => Except.error e
        | none =>
          match z.member "Contents/content.hpf" with
          | some _ => Except.error "UnboundLocalError"
          | none =>
            Except.ok "ERROR :: .hwpx 텍스트 추출 오류 > section 파일을 찾을 수 없습니다."
  else
    Except.ok "INFO :: .hwpx 텍스트 추출 > ZIP 파일이 아님. 추가 처리 필요."

/-- Embeds hwpxExtractor.extract_text: the outermost `except Exception` turns
every exception raised in the body into the descriptive error string returned
through the normal channel. -/
def hwpx_extract_text (z : HwpxZip) : String :=
  match hwpx_body z with
  | Except.ok s => s
  | Except.error e => "ERROR :: .hwpx 텍스트 추출 오류 > " ++ e

/-! ## Concrete example inputs used by the theorems below -/

/-- Trivial oracle bundle for concrete runs in which no codec ever succeeds,
zlib always fails, the best-effort inflate is the identity and every character
is reported with category letter 'L'. -/
def oracles0 : HwpOracles :=
  { zlib_decompress := fun _ => none
    best_effort_decompress := fun d => d
    decode := fun _ _ => none
    category0 := fun _ => 'L' }

/-- An opened compound document with FileHeader, the summary stream and two
body-text sections whose streams are empty (and a 37-byte uncompressed-flag
header). -/
def oleTwoSections : OleDoc :=
  { dirs := [["FileHeader"], ["\x05HwpSummaryInformation"],
             ["BodyText", "Section0"], ["BodyText", "Section1"]]
    stream := fun n => if n = "FileHeader" then List.replicate 37 0 else [] }

/-- An opened compound document with the administrative streams present but no
BodyText entry at all. -/
def oleNoBody : OleDoc :=
  { dirs := [["FileHeader"], ["\x05HwpSummaryInformation"]]
    stream := fun n => if n = "FileHeader" then List.replicate 37 0 else [] }

/-- Like oleNoBody but with an extra unrelated storage, used as a distinct
witness input. -/
def oleNoBody2 : OleDoc :=
  { dirs := [["FileHeader"], ["\x05HwpSummaryInformation"], ["DocInfo"]]
    stream := fun n => if n = "FileHeader" then List.replicate 37 0 else [] }

/-- A ten-byte record buffer whose single record header 0xFFF00043 carries
tag_id 67 and the saturated 12-bit size 0xFFF, followed by the four-byte
extended size 2 and the two payload bytes 0x41 0x00. -/
def recBufExt : List Nat := [0x43, 0x00, 0xF0, 0xFF, 2, 0, 0, 0, 0x41, 0x00]

/-- A codec oracle that recognises exactly the two byte spans a parser could
hand over for recBufExt: the clamped slice starting at the extended-size field
and the two payload bytes after it. -/
def codecExt : String → List Nat → Option String := fun _ rd =>
  if rd = [2, 0, 0, 0, 0x41, 0x00] then some "CLAMPED"
  else if rd = [0x41, 0x00] then some "EXTENDED"
  else none

/-- A concrete handler bundle for _parse_hwp5_text in which UTF-16LE decoding
recognises the payload bytes 0x41 0x00 as "A", every character is printable
and stripping is the identity. -/
def handler0 : Hwp5Handler :=
  { u16ignore := fun rd => if rd = [0x41, 0x00] then "A" else ""
    isPrintable := fun _ => true
    isSpace := fun _ => false
    strip := fun s => s }

/-- A 32-byte all-zero file whose signature matches no known variant. -/
def fileUnknown : HwpFile :=
  { path := "sample.hwp", openOk := true, bytes := List.replicate 32 0 }

/-- A file that cannot be opened at all (and is not named .hwpx). -/
def fileUnopenable : HwpFile :=
  { path := "other.doc", openOk := false, bytes := [] }

/-- Handler oracles for extract_from_hwp that would return non-empty pages,
showing that the unknown-version branch never consults them. -/
def handlersNonEmpty : HwpHandlers :=
  { from_hwpx := fun _ => Except.ok ["x"]
    from_hwp5 := fun _ => Except.ok ["y"]
    from_hwp3 := fun _ => Except.ok ["z"] }

/-- A parsed hwpx section root holding one paragraph with two runs whose hp:t
texts are "Hi" and "there". -/
def xmlHiThere : XmlElem :=
  XmlElem.elem (ns_tag "hs" "sec") none
    [XmlElem.elem (ns_tag "hp" "p") none
      [XmlElem.elem (ns_tag "hp" "run") none
        [XmlElem.elem (ns_tag "hp" "t") (some "Hi") []],
       XmlElem.elem (ns_tag "hp" "run") none
        [XmlElem.elem (ns_tag "hp" "t") (some "there") []]]]

/-- A ZIP package whose primary section path is absent and whose first
fallback member BodyText/section0.xml parses to xmlHiThere. -/
def zipFallbackHiThere : HwpxZip :=
  { isZip := true
    openErr := none
    member := fun n =>
      if n = "BodyText/section0.xml" then some (Except.ok xmlHiThere) else none }

/-- A parsed hwpx section root holding one paragraph with a single run whose
hp:t text is "X". -/
def xmlSingleX : XmlElem :=
  XmlElem.elem (ns_tag "hs" "sec") none
    [XmlElem.elem (ns_tag "hp" "p") none
      [XmlElem.elem (ns_tag "hp" "run") none
        [XmlElem.elem (ns_tag "hp" "t") (some "X") []]]]

/-- A ZIP package whose primary section path is present and parses to
xmlSingleX. -/
def zipPrimaryX : HwpxZip :=
  { isZip := true
    openErr := none
    member := fun n =>
      if n = "Contents/section0.xml" then some (Except.ok xmlSingleX) else none }

/-- A byte source that passes is_zipfile but whose ZipFile construction raises
BadZipFile. -/
def zipBadOpen : HwpxZip :=
  { isZip := true, openErr := some "BadZipFile", member := fun _ => none }

/-! ## Helper lemmas -/

theorem data_mk (l : List Char) : (String.mk l).data = l := rfl

theorem unpack_u32le_isSome (data : List Nat) (i : Nat) (h : i + 4 ≤ data.length) :
    ∃ v, unpack_u32le data i = some v := by
  unfold unpack_u32le
  rw [List.getElem?_eq_getElem (by omega), List.getElem?_eq_getElem (by omega),
      List.getElem?_eq_getElem (by omega), List.getElem?_eq_getElem (by omega)]
  exact ⟨_, rfl⟩

theorem filter_twice {α : Type} (p : α → Bool) (l : List α) :
    (l.filter p).filter p = l.filter p := by
  simp [List.filter_filter]

theorem filter_swap {α : Type} (p q : α → Bool) (l : List α) :
    (l.filter q).filter p = (l.filter p).filter q := by
  simp only [List.filter_filter]
  exact List.filter_congr (fun a _ => by cases p a <;> cases q a <;> rfl)

theorem collect_section_nums_no_bodytext (dirs : List (List String))
    (h : ∀ d ∈ dirs, d ≠ [] ∧ d.head? ≠ some "BodyText") :
    collect_section_nums dirs = Except.ok [] := by
  induction dirs with
  | nil => rfl
  | cons d rest ih =>
    obtain ⟨hne, hhd⟩ := h d (by simp)
    match d, hne with
    | d0 :: dtail, _ =>
      have hd0 : d0 ≠ "BodyText" := by simpa using hhd
      simp only [collect_section_nums, if_neg hd0]
      exact ih (fun x hx => h x (by simp [hx]))

/-! ## Claim theorems -/

/-- C1 (code-bug evidence): hwpExtractor.get_text enumerates both body-text
sections of oleTwoSections (section numbers 0 and 1), yet returns after
processing only the first one, because the source's `return text` statement is
inside the section for-loop; the result is the single string "\n" (first
section's cleaned text plus its newline) instead of one entry per enumerated
section. -/
theorem get_text_early_return_bug :
    get_text oracles0 "sample.hwp" (some oleTwoSections) = GetTextOutcome.returned "\n" ∧
    collect_section_nums oleTwoSections.dirs = Except.ok [0, 1] := by
  constructor
  · have hsp : sectionParse (fun _ _ => none) [] 0 = Except.ok "" := by
      rw [sectionParse.eq_def]; simp
    simp +decide [get_text, oleTwoSections, oracles0, collect_section_nums, py_int,
      digits_val, py_sorted, insert_sorted, get_text_loop, get_text_decompress, hsp,
      clean_text, remove_chinese_characters, remove_control_characters]
  · rfl

/-- C2: when raw-deflate inflation fails on a byte buffer (zlib.decompress
raises zlib.error), neither decompression path raises: get_text falls back to
the best-effort partial inflate (partial_decompress, modelled from the spec)
and _extract_from_hwp5 falls back to the raw input bytes.  Both embedded
functions are total, so the failure never propagates to the caller. -/
theorem decompress_never_raises (O : HwpOracles) (data : List Nat)
    (hfail : O.zlib_decompress data = none) :
    get_text_decompress O true data = O.best_effort_decompress data ∧
    hwp5_decompress O true data = data := by
  constructor <;> simp [get_text_decompress, hwp5_decompress, hfail]

/-- Witness for decompress_never_raises at a concrete oracle whose inflate
always fails and whose best-effort inflate keeps one byte. -/
theorem decompress_never_raises_witness :
    get_text_decompress
      ⟨fun _ => none, fun d => d.take 1, fun _ _ => none, fun _ => 'L'⟩ true [7, 8] = [7] ∧
    hwp5_decompress
      ⟨fun _ => none, fun d => d.take 1, fun _ _ => none, fun _ => 'L'⟩ true [7, 8] = [7, 8] :=
  decompress_never_raises
    ⟨fun _ => none, fun d => d.take 1, fun _ _ => none, fun _ => 'L'⟩ [7, 8] rfl

/-- C3 counterexample: when every codec fails, decode_text returns none
(Python None, the implicit return value), not the empty string the claim
asserts. -/
theorem decode_text_all_fail_returns_none :
    decode_text (fun _ _ => none) [] = none ∧
    decode_text (fun _ _ => none) [] ≠ some "" := by
  decide

/-- C3 (amended): decode_text tries 'utf-16', 'utf-8', 'cp949', 'euc-kr' in
that fixed order and returns the string from the first encoding that decodes
without error; when all four fail it returns None (no string at all, modelled
by `none`) rather than the empty string. -/
theorem decode_text_first_success (decode : String → List Nat → Option String)
    (rd : List Nat) :
    ((∀ enc, decode enc rd = none) → decode_text decode rd = none) ∧
    (∀ s, decode "utf-16" rd = some s → decode_text decode rd = some s) ∧
    (∀ s, decode "utf-16" rd = none → decode "utf-8" rd = some s →
      decode_text decode rd = some s) ∧
    (∀ s, decode "utf-16" rd = none → decode "utf-8" rd = none →
      decode "cp949" rd = some s → decode_text decode rd = some s) ∧
    (∀ s, decode "utf-16" rd = none → decode "utf-8" rd = none →
      decode "cp949" rd = none → decode "euc-kr" rd = some s →
      decode_text decode rd = some s) := by
  refine ⟨?_, ?_, ?_, ?_, ?_⟩ <;> intros <;> simp_all [decode_text, decode_text_go]

/-- Witness for decode_text_first_success: a codec oracle succeeding only for
'cp949' makes decode_text return that third encoding's string, and an oracle
that always fails makes it return none. -/
theorem decode_text_first_success_witness :
    decode_text (fun enc _ => if enc = "cp949" then some "ok" else none) [1] = some "ok" ∧
    decode_text (fun _ _ => none) [2] = none :=
  ⟨(decode_text_first_success (fun enc _ => if enc = "cp949" then some "ok" else none)
      [1]).2.2.2.1 "ok" (by decide) (by decide) (by decide),
   (decode_text_first_success (fun _ _ => none) [2]).1 (fun _ => rfl)⟩

/-- C4 counterexample: a compound document that opens successfully and has the
administrative streams but no body-text area makes get_text return None (the
for-loop body never runs and the function falls off its end): no exception is
raised — in particular nothing like a MissingSectionError — and the legacy
retry is not taken either. -/
theorem get_text_missing_bodytext_counterexample :
    get_text oracles0 "sample.hwp" (some oleNoBody) = GetTextOutcome.returnedNone ∧
    GetTextOutcome.returnedNone ≠ GetTextOutcome.raised "MissingSectionError" ∧
    GetTextOutcome.returnedNone ≠ GetTextOutcome.retried := by
  decide

/-- C4 (amended): the legacy-binary retry is taken exactly when the top-level
compound-container open fails; when the container opens but FileHeader or the
summary stream is missing, get_text raises the generic Exception of line 32
(no distinct error class exists in the code); and when the container opens
with the administrative streams present but no body-text storages at all,
get_text raises nothing and returns None. -/
theorem get_text_retry_only_on_open_failure :
    (∀ (O : HwpOracles) (fname : String),
      get_text O fname none = GetTextOutcome.retried) ∧
    (∀ (O : HwpOracles) (fname : String) (ole : OleDoc),
      ¬ (["FileHeader"] ∈ ole.dirs ∧ ["\x05HwpSummaryInformation"] ∈ ole.dirs) →
      get_text O fname (some ole) =
        GetTextOutcome.raised
          ("ERROR :: HWPEXTRACTOR :: " ++ fname ++ " is Not a valid HWP OLE file")) ∧
    (∀ (O : HwpOracles) (fname : String) (ole : OleDoc) (b : Nat),
      (["FileHeader"] ∈ ole.dirs ∧ ["\x05HwpSummaryInformation"] ∈ ole.dirs) →
      (ole.stream "FileHeader")[36]? = some b →
      (∀ d ∈ ole.dirs, d ≠ [] ∧ d.head? ≠ some "BodyText") →
      get_text O fname (some ole) = GetTextOutcome.returnedNone) := by
  refine ⟨fun O fname => rfl, ?_, ?_⟩
  · intro O fname ole h
    simp [get_text, h]
  · intro O fname ole b hmem hb hnb
    simp [get_text, hmem, hb, collect_section_nums_no_bodytext ole.dirs hnb,
      py_sorted, get_text_loop]

/-- Witness for get_text_retry_only_on_open_failure: a failed open retries,
and an opened document with administrative streams, an unrelated DocInfo
storage and no BodyText entries returns None. -/
theorem get_text_retry_only_witness :
    get_text oracles0 "w.hwp" none = GetTextOutcome.retried ∧
    get_text oracles0 "w.hwp" (some oleNoBody2) = GetTextOutcome.returnedNone :=
  ⟨get_text_retry_only_on_open_failure.1 oracles0 "w.hwp",
   get_text_retry_only_on_open_failure.2.2 oracles0 "w.hwp" oleNoBody2 0
     (by decide) (by decide) (by decide)⟩

/-- C5 counterexample: on the one-byte buffer [0] the inline record loop of
hwpExtractor.get_text enters the loop (0 < 1) and struct.unpack_from raises
struct.error because fewer than 4 bytes remain: the parser does not stop
cleanly. -/
theorem sectionParse_trailing_byte_raises :
    sectionParse (fun _ _ => none) [0] 0 = Except.error "struct.error" := by
  rw [sectionParse.eq_def]
  simp [unpack_u32le]

/-- C5 (amended): the record parser of HWPTextExtractor._parse_hwp5_text
terminates without raising on every input byte buffer and from every starting
offset: its guards stop the scan cleanly at end-of-buffer and on truncated
records, so the struct.error outcome is unreachable.  (The inline record loop
of hwpExtractor.get_text does not share this property, as the counterexample
shows.) -/
theorem hwp5_loop_never_raises (H : Hwp5Handler) (data : List Nat) (offset : Nat) :
    (hwp5_loop H data offset).2 = none := by
  have main : ∀ n o, data.length - o ≤ n → (hwp5_loop H data o).2 = none := by
    intro n
    induction n with
    | zero =>
      intro o hle
      rw [hwp5_loop.eq_def]
      have hno : ¬ o < data.length - 4 := by omega
      simp [hno]
    | succ n ih =>
      intro o hle
      rw [hwp5_loop.eq_def]
      by_cases hg : o < data.length - 4
      · have h4 : ¬ data.length < o + 4 := by omega
        obtain ⟨v, hv⟩ := unpack_u32le_isSome data o (by omega)
        simp only [dif_pos hg, if_neg h4, hv]
        by_cases hs : (v >>> 20) &&& 0xFFF = 0xFFF
        · simp only [if_pos hs]
          by_cases h8 : data.length < o + 8
          · simp [h8]
          · obtain ⟨w, hw⟩ := unpack_u32le_isSome data (o + 4) (by omega)
            simp only [if_neg h8, hw]
            by_cases hps : data.length < o + 8 + w
            · simp [hps]
            · have hrest := ih (o + 8 + w) (by omega)
              simp only [if_neg hps]
              by_cases ht : v &&& 0x3FF = 67
              · simp only [if_pos ht]
                cases handle_para_text H ((data.drop (o + 8)).take w) <;> simp [hrest]
              · simp only [if_neg ht]; exact hrest
        · simp only [if_neg hs]
          by_cases hps : data.length < o + 4 + ((v >>> 20) &&& 0xFFF)
          · simp [hps]
          · have hrest := ih (o + 4 + ((v >>> 20) &&& 0xFFF)) (by omega)
            simp only [if_neg hps]
            by_cases ht : v &&& 0x3FF = 67
            · simp only [if_pos ht]
              cases handle_para_text H ((data.drop (o + 4)).take ((v >>> 20) &&& 0xFFF)) <;>
                simp [hrest]
            · simp only [if_neg ht]; exact hrest
      · simp [hg]
  exact main (data.length - offset) offset (Nat.le_refl _)

/-- C6 counterexample: on recBufExt (header with 12-bit size field 0xFFF,
extended size 2, payload 0x41 0x00) the inline record loop of
hwpExtractor.get_text hands the decoder the clamped slice that starts at the
extended-size field ([2,0,0,0,0x41,0x00], size taken literally as 4095) rather
than the payload after the extended field ([0x41,0x00]): this parser never
reads an extended size. -/
theorem sectionParse_ignores_extended_size :
    sectionParse codecExt recBufExt 0 = Except.ok ("CLAMPED" ++ "\n") ∧
    codecExt "utf-16" [0x41, 0x00] = some "EXTENDED" := by
  have hrec : sectionParse codecExt [67, 0, 240, 255, 2, 0, 0, 0, 65, 0] 4099 =
      Except.ok "" := by
    rw [sectionParse.eq_def]; simp
  constructor
  · have e1 : (4293918787 : Nat) &&& 1023 = 67 := by decide
    have e2 : (4293918787 : Nat) >>> 20 &&& 4095 = 4095 := by decide
    rw [sectionParse.eq_def]
    simp only [recBufExt]
    norm_num [unpack_u32le, e1, e2, decode_text, decode_text_go, codecExt, hrec]
  · simp [codecExt]

/-- C6 (amended): in HWPTextExtractor._parse_hwp5_text, whenever a record
header's 12-bit size field equals 0xFFF and the buffer is long enough, the
loop reads the next 4 little-endian bytes after the base header as the true
payload size, takes the payload starting right after that extended field, and
advances the cursor by 8 header bytes plus the payload size.  (The inline
record loop of hwpExtractor.get_text has no extended-size handling, as the
counterexample shows.) -/
theorem hwp5_loop_extended_size (H : Hwp5Handler) (data : List Nat)
    (offset record_header size2 : Nat)
    (hlen : offset + 8 + size2 ≤ data.length)
    (hhdr : unpack_u32le data offset = some record_header)
    (hfff : (record_header >>> 20) &&& 0xFFF = 0xFFF)
    (hext : unpack_u32le data (offset + 4) = some size2) :
    hwp5_loop H data offset =
      (if record_header &&& 0x3FF = 67 then
        match handle_para_text H ((data.drop (offset + 8)).take size2) with
        | some t => (t :: (hwp5_loop H data (offset + 8 + size2)).1,
                     (hwp5_loop H data (offset + 8 + size2)).2)
        | none => hwp5_loop H data (offset + 8 + size2)
      else hwp5_loop H data (offset + 8 + size2)) := by
  conv_lhs => rw [hwp5_loop.eq_def]
  have hg : offset < data.length - 4 := by omega
  have h4 : ¬ data.length < offset + 4 := by omega
  have h8 : ¬ data.length < offset + 8 := by omega
  have hps : ¬ data.length < offset + 8 + size2 := by omega
  simp only [dif_pos hg, if_neg h4, hhdr, if_pos hfff, if_neg h8, hext, if_neg hps]

/-- Witness for hwp5_loop_extended_size on recBufExt: the tag-67 record with
extended size 2 yields exactly the text decoded from the two payload bytes
after the extended field. -/
theorem hwp5_loop_extended_size_witness :
    hwp5_loop handler0 recBufExt 0 = (["A"], none) := by
  have h := hwp5_loop_extended_size handler0 recBufExt 0 0xFFF00043 2
    (by decide) (by decide) (by decide) (by decide)
  rw [h, hwp5_loop.eq_def]
  decide

/-- C7 counterexample: on a package whose primary section path is absent and
whose first fallback BodyText/section0.xml holds exactly the runs "Hi" and
"there", hwpxExtractor.extract_text returns "Hi\nthere" — the runs are joined
with a newline, not the space of the claimed "Hi there". -/
theorem hwpx_fallback_newline_join :
    hwpx_extract_text zipFallbackHiThere = "Hi\nthere" ∧
    hwpx_extract_text zipFallbackHiThere ≠ "Hi there" := by
  have h : hwpx_extract_text zipFallbackHiThere = "Hi\nthere" := by
    simp +decide [hwpx_extract_text, hwpx_body, zipFallbackHiThere, hwpx_run_texts,
      et_findall_desc, et_find_child, descList, xmlHiThere, ns_tag, hwpx_namespaces,
      XmlElem.tagOf, XmlElem.textOf, XmlElem.childrenOf]
  exact ⟨h, by rw [h]; decide⟩

/-- C7 (amended): extract_text probes Contents/section0.xml first, then
BodyText/section0.xml, then Contents/content.hpf, stopping at the first
member that exists; when the primary is absent and the first fallback parses,
the extracted section text is the hp:t run texts joined by newlines (so two
runs "Hi" and "there" yield "Hi\nthere"); when no candidate exists the
section-not-found message is returned as an ordinary value. -/
theorem hwpx_fallback_priority :
    (∀ (z : HwpxZip) (root : XmlElem),
      z.isZip = true → z.openErr = none →
      z.member "Contents/section0.xml" = some (Except.ok root) →
      hwpx_extract_text z = "\n".intercalate (hwpx_run_texts root)) ∧
    (∀ (z : HwpxZip) (root : XmlElem),
      z.isZip = true → z.openErr = none →
      z.member "Contents/section0.xml" = none →
      z.member "BodyText/section0.xml" = some (Except.ok root) →
      hwpx_extract_text z = "\n".intercalate (hwpx_run_texts root)) ∧
    (∀ z : HwpxZip,
      z.isZip = true → z.openErr = none →
      z.member "Contents/section0.xml" = none →
      z.member "BodyText/section0.xml" = none →
      z.member "Contents/content.hpf" = none →
      hwpx_extract_text z =
        "ERROR :: .hwpx 텍스트 추출 오류 > section 파일을 찾을 수 없습니다.") := by
  refine ⟨?_, ?_, ?_⟩ <;> intros <;> simp_all [hwpx_extract_text, hwpx_body]

/-- Witness for hwpx_fallback_priority: a package whose primary section path
exists with a single run "X" extracts to "X". -/
theorem hwpx_fallback_priority_witness :
    hwpx_extract_text zipPrimaryX = "X" := by
  have h := hwpx_fallback_priority.1 zipPrimaryX xmlSingleX rfl rfl rfl
  rw [h]
  simp +decide [hwpx_run_texts, et_findall_desc, et_find_child, descList, xmlSingleX,
    ns_tag, hwpx_namespaces, XmlElem.tagOf, XmlElem.textOf, XmlElem.childrenOf]

/-- C8 counterexample: a 32-zero-byte file matching no known signature is
classified as unknown (version code 0) and extract_from_hwp returns the empty
list as an ordinary value — a silent empty result, with no error of any kind
raised (the handler oracles, which would return non-empty pages, are never
consulted). -/
theorem extract_unknown_silent_empty :
    detect_hwp_version fileUnknown = 0 ∧
    extract_from_hwp handlersNonEmpty fileUnknown = [] := by
  decide

/-- C8 (amended): whenever the extension is not .hwpx and either the open
fails or the first bytes match neither the compound-file magic nor the legacy
signature, the document is classified as unknown (0) and extract_from_hwp
returns the empty list (after only printing a message) instead of raising a
distinct error. -/
theorem detect_unknown_returns_empty (E : HwpHandlers) (f : HwpFile)
    (hx : py_endswith (py_lower f.path) ".hwpx" = false)
    (hrest : f.openOk = false ∨
      ((f.bytes.take 32).take 8 ≠ cfb_magic ∧ (f.bytes.take 32).take 16 ≠ hwp3_sig_bytes)) :
    detect_hwp_version f = 0 ∧ extract_from_hwp E f = [] := by
  have hdet : detect_hwp_version f = 0 := by
    rcases hrest with h | ⟨h8, h16⟩
    · simp [detect_hwp_version, hx, h]
    · by_cases ho : f.openOk = false <;> simp [detect_hwp_version, hx, ho, h8, h16]
  exact ⟨hdet, by simp [extract_from_hwp, hdet]⟩

/-- Witness for detect_unknown_returns_empty at a file whose open fails. -/
theorem detect_unknown_returns_empty_witness :
    detect_hwp_version fileUnopenable = 0 ∧
    extract_from_hwp handlersNonEmpty fileUnopenable = [] :=
  detect_unknown_returns_empty handlersNonEmpty fileUnopenable (by decide) (Or.inl rfl)

/-- C9: clean_text is idempotent for every category oracle and every string:
both removal passes are character filters, filters commute and are idempotent.
-/
theorem clean_text_idempotent (category0 : Char → Char) (s : String) :
    clean_text category0 (clean_text category0 s) = clean_text category0 s := by
  have key : ∀ (p q : Char → Bool) (l : List Char),
      (((l.filter q).filter p).filter q).filter p = (l.filter q).filter p := by
    intro p q l
    simp only [List.filter_filter]
    exact List.filter_congr (fun a _ => by cases p a <;> cases q a <;> rfl)
  simp only [clean_text, remove_control_characters, remove_chinese_characters, data_mk]
  exact congrArg String.mk (key _ _ s.data)

/-- C10: hwpxExtractor.extract_text is a total function into strings: a
non-ZIP input yields the INFO string, any exception raised inside the body is
converted by the outermost handler into the descriptive ERROR string, and a
successful body result is returned unchanged — all through the same string
channel. -/
theorem hwpx_extract_total (z : HwpxZip) :
    (z.isZip = false →
      hwpx_extract_text z = "INFO :: .hwpx 텍스트 추출 > ZIP 파일이 아님. 추가 처리 필요.") ∧
    (∀ e, hwpx_body z = Except.error e →
      hwpx_extract_text z = "ERROR :: .hwpx 텍스트 추출 오류 > " ++ e) ∧
    (∀ s, hwpx_body z = Except.ok s → hwpx_extract_text z = s) := by
  refine ⟨?_, ?_, ?_⟩
  · intro h; simp [hwpx_extract_text, hwpx_body, h]
  · intro e he; simp [hwpx_extract_text, he]
  · intro s hs; simp [hwpx_extract_text, hs]

/-- Witness for hwpx_extract_total: a package whose ZipFile construction
raises BadZipFile extracts to the descriptive error string. -/
theorem hwpx_extract_total_witness :
    hwpx_extract_text zipBadOpen = "ERROR :: .hwpx 텍스트 추출 오류 > BadZipFile" :=
  (hwpx_extract_total zipBadOpen).2.1 "BadZipFile" rfl
